import Mathlib

/-!
Verification of the libca retry/backoff engine and Result combinators.

Shallow embedding of:
  * `src/result/utils.ts`  — the `Result` type and its combinators,
  * `src/retry/backoff.ts` — the exponential backoff calculator,
  * `src/retry/retry.ts`   — the exception-based retry engine,
  * `src/retry/retry-result.ts` — the Result-based retry engine
    (both the recursive implementation and the alternate loop
    implementation present in the repository).

Conventions of the embedding:
  * JS numbers are modelled as `ℚ` (exact arithmetic); `Math.floor` is
    `Int.floor`; `Math.random()` draws the head of an explicit entropy
    stream `List ℚ` of values in `[0,1)`, so "the random source is never
    consulted" is visible as the stream being returned unchanged.
  * A promise-returning operation is modelled as a function from the
    invocation index (1-based) to its outcome; a thrown exception is the
    `Except.error` channel, a Result is returned as a value.
  * The observable side effects of a retry session (operation
    invocations, continuation-predicate calls, `onRetry` callbacks,
    backoff waits) are collected in a `RetryTrace`.  JS `||` and `&&`
    short-circuit, so a continuation-predicate call is recorded only on
    the paths where the source actually evaluates the predicate.
-/

namespace Libca

/-- `Result<T,E>` from `src/result/types.ts`: a discriminated union with
`success: true/false`. -/
inductive Result (T E : Type) where
  | success (value : T)
  | failure (error : E)
deriving Repr, DecidableEq

/-- `isSuccess` from `src/result/utils.ts`: `result.success === true`. -/
def isSuccess {T E : Type} : Result T E → Bool
  | .success _ => true
  | .failure _ => false

/-- `isFailure` from `src/result/utils.ts`: `result.success === false`. -/
def isFailure {T E : Type} : Result T E → Bool
  | .success _ => false
  | .failure _ => true

/-- `unwrap` from `src/result/utils.ts`. -/
def unwrap {T E : Type} (result : Result T E) (fallback : T) : T :=
  match result with
  | .success v => v
  | .failure _ => fallback

/-- `map` from `src/result/utils.ts`:
success → `success(fn(result.value))`, failure → `failure(result.error)`. -/
def map {T U E : Type} (result : Result T E) (fn : T → U) : Result U E :=
  match result with
  | .success v => .success (fn v)
  | .failure e => .failure e

/-- `flatMap` from `src/result/utils.ts`. -/
def flatMap {T U E : Type} (result : Result T E) (fn : T → Result U E) :
    Result U E :=
  match result with
  | .success v => fn v
  | .failure e => .failure e

/-- `mapError` from `src/result/utils.ts`. -/
def mapError {T E F : Type} (result : Result T E) (fn : E → F) : Result T F :=
  match result with
  | .success v => .success v
  | .failure e => .failure (fn e)

/-- `map` from `src/result/utils.ts`, with the transform modelled as a
state-passing function `T → σ → U × σ` so that every invocation of the
transform (a possibly side-effecting JS function) is observable in the
state thread.  The branching is exactly that of `map`: the transform is
applied only in the success branch. -/
def mapWithState {T U E σ : Type} (result : Result T E)
    (fn : T → σ → U × σ) (s : σ) : Result U E × σ :=
  match result with
  | .success v =>
    let p := fn v s
    (.success p.1, p.2)
  | .failure e => (.failure e, s)

/-- `flatMap` from `src/result/utils.ts` with a state-instrumented
transform; the transform is applied only in the success branch. -/
def flatMapWithState {T U E σ : Type} (result : Result T E)
    (fn : T → σ → Result U E × σ) (s : σ) : Result U E × σ :=
  match result with
  | .success v => fn v s
  | .failure e => (.failure e, s)

/-- `mapError` from `src/result/utils.ts` with a state-instrumented
transform; the transform is applied only in the failure branch. -/
def mapErrorWithState {T E F σ : Type} (result : Result T E)
    (fn : E → σ → F × σ) (s : σ) : Result T F × σ :=
  match result with
  | .success v => (.success v, s)
  | .failure e =>
    let p := fn e s
    (.failure p.1, p.2)

/-- `mapAsync` from `src/result/utils.ts` with a state-instrumented
transform.  `await fn(result.value)` is the transform's application in
this embedding; the branching is identical to `map`. -/
def mapAsyncWithState {T U E σ : Type} (result : Result T E)
    (fn : T → σ → U × σ) (s : σ) : Result U E × σ :=
  match result with
  | .success v =>
    let p := fn v s
    (.success p.1, p.2)
  | .failure e => (.failure e, s)

/-- The loop body of `all` from `src/result/utils.ts`: walk the array
left to right; on the first non-success element return that element
itself; otherwise push the value onto the accumulator. -/
def allGo {T E : Type} : List (Result T E) → List T → Result (List T) E
  | [], values => .success values
  | result :: rest, values =>
    match result with
    | .failure e => .failure e
    | .success v => allGo rest (values ++ [v])

/-- `all` from `src/result/utils.ts`: starts the scan with an empty
`values` accumulator. -/
def all {T E : Type} (results : List (Result T E)) : Result (List T) E :=
  allGo results []

/-- The value carried by a success, if any (used only to state the
specification of `all`). -/
def successValue? {T E : Type} : Result T E → Option T
  | .success v => some v
  | .failure _ => none

/-- The error carried by a failure, if any (used only to state the
specification of `all`). -/
def failureError? {T E : Type} : Result T E → Option E
  | .success _ => none
  | .failure e => some e

/-- `BackoffOptions` from `src/retry/types.ts`: three optional numeric
fields, base delay, maximum delay, jitter fraction. -/
structure BackoffOptions where
  baseMs : Option ℚ := none
  maxMs : Option ℚ := none
  jitterFactor : Option ℚ := none

/-- The record produced by `extractBackoffParams`. -/
structure BackoffParams where
  baseMs : ℚ
  maxMs : ℚ
  jitterFactor : ℚ
deriving Repr, DecidableEq

/-- `extractBackoffParams` from `src/retry/backoff.ts`: fills in the
defaults `baseMs = 200`, `maxMs = 8000`, `jitterFactor = 0.2`. -/
def extractBackoffParams (options : BackoffOptions) : BackoffParams :=
  { baseMs := options.baseMs.getD 200
    maxMs := options.maxMs.getD 8000
    jitterFactor := options.jitterFactor.getD (2/10) }

/-- `calculateExponentialDelay` from `src/retry/backoff.ts`:
`baseMs * (2 ** (attempt - 1))`. -/
def calculateExponentialDelay (baseMs : ℚ) (attempt : ℕ) : ℚ :=
  baseMs * 2 ^ (attempt - 1)

/-- `applyJitter` from `src/retry/backoff.ts`.  If `jitterFactor <= 0`
the delay is returned unchanged and `Math.random()` is not called (the
entropy stream is untouched).  Otherwise one random value `r ∈ [0,1)` is
drawn and the result is `Math.max(0, Math.floor(delay + jitterAmount))`
with `jitterAmount = delay * jitterFactor * (r * 2 - 1)`. -/
def applyJitter (delay : ℚ) (jitterFactor : ℚ) (rng : List ℚ) :
    ℚ × List ℚ :=
  if jitterFactor ≤ 0 then (delay, rng)
  else
    let r := rng.headD 0
    let jitterAmount := delay * jitterFactor * (r * 2 - 1)
    (((max 0 ⌊delay + jitterAmount⌋ : ℤ) : ℚ), rng.tail)

/-- `exponentialBackoffWithJitter` from `src/retry/backoff.ts`, applied
to an attempt number.  It computes the exponential delay, clips it at
`maxMs`, and applies jitter.  The returned pair is the delay handed to
`wait` (the suspension itself is not modelled) and the remaining entropy
stream. -/
def exponentialBackoffWithJitter (options : BackoffOptions) (attempt : ℕ)
    (rng : List ℚ) : ℚ × List ℚ :=
  let p := extractBackoffParams options
  let exponentialDelay := calculateExponentialDelay p.baseMs attempt
  let clippedDelay := min exponentialDelay p.maxMs
  applyJitter clippedDelay p.jitterFactor rng

/-- `exponentialBackoff` from `src/retry/backoff.ts`: delegates to
`exponentialBackoffWithJitter` with `jitterFactor` forced to `0` and
only `baseMs` supplied (so `maxMs` takes its default `8000`).  In the
source `baseMs` is a defaulted parameter with default `200`. -/
def exponentialBackoff (baseMs : ℚ) (attempt : ℕ) (rng : List ℚ) :
    ℚ × List ℚ :=
  exponentialBackoffWithJitter
    { baseMs := some baseMs, jitterFactor := some 0 } attempt rng

/-- `createBackoff` from `src/retry/backoff.ts`: alias for
`exponentialBackoffWithJitter`. -/
def createBackoff (options : BackoffOptions) (attempt : ℕ)
    (rng : List ℚ) : ℚ × List ℚ :=
  exponentialBackoffWithJitter options attempt rng

/-- Observable side effects of one retry session: how many times the
operation ran, and the arguments of every continuation-predicate call,
every `onRetry` callback, and every backoff wait, in order. -/
structure RetryTrace (E : Type) where
  opCalls : ℕ
  condCalls : List ℕ
  onRetryCalls : List (ℕ × E)
  backoffCalls : List ℕ
deriving Repr, DecidableEq

/-- `RetryOptions` from `src/retry/types.ts`, restricted to the fields
the engine's control flow depends on: the retry budget and the optional
continuation predicate.  The optional `backoff` and `onRetry` fields are
modelled through the trace (their invocations are the observable). -/
structure RetryOptions (E : Type) where
  maxRetries : ℕ
  retryCondition : Option (E → ℕ → Bool) := none

/-- `prepareOptions` from `src/retry/retry.ts`: fills in the default
continuation predicate `(error) => !!error`, where `truthy` models JS
truthiness of the caught error value. -/
def prepareOptions {E : Type} (truthy : E → Bool) (options : RetryOptions E) :
    ℕ × (E → ℕ → Bool) :=
  (options.maxRetries,
   options.retryCondition.getD (fun error _ => truthy error))

/-- `retryRecursive` from `src/retry/retry.ts`.  `fn k` is the outcome of
the `k`-th invocation of the operation (`attemptExecution` wraps a throw
as `Except.error`).  The source guard is
`attempt > maxRetries || !retryCondition(error, attempt)`; `||`
short-circuits, so the predicate is evaluated (and recorded in the
trace) only when the budget check is false. -/
def retryRecursive {T E : Type} (fn : ℕ → Except E T) (maxRetries : ℕ)
    (retryCondition : E → ℕ → Bool) (attempt : ℕ) :
    Except E T × RetryTrace E :=
  match fn attempt with
  | .ok value => (.ok value, ⟨1, [], [], []⟩)
  | .error e =>
    if maxRetries < attempt then
      (.error e, ⟨1, [], [], []⟩)
    else if !retryCondition e attempt then
      (.error e, ⟨1, [attempt], [], []⟩)
    else
      let rest := retryRecursive fn maxRetries retryCondition (attempt + 1)
      (rest.1,
       ⟨rest.2.opCalls + 1, attempt :: rest.2.condCalls,
        (attempt, e) :: rest.2.onRetryCalls, attempt :: rest.2.backoffCalls⟩)
termination_by maxRetries + 1 - attempt
decreasing_by omega

/-- `retryAsync` from `src/retry/retry.ts`: prepares the options and
starts `retryRecursive` at attempt 1. -/
def retryAsync {T E : Type} (fn : ℕ → Except E T) (truthy : E → Bool)
    (options : RetryOptions E) : Except E T × RetryTrace E :=
  let p := prepareOptions truthy options
  retryRecursive fn p.1 p.2 1

/-- `retry` from `src/retry/retry.ts`: wraps the synchronous operation
in a resolved promise and delegates to `retryAsync`; in this embedding
the lift is the identity, so `retry` and `retryAsync` coincide. -/
def retry {T E : Type} (fn : ℕ → Except E T) (truthy : E → Bool)
    (options : RetryOptions E) : Except E T × RetryTrace E :=
  retryAsync fn truthy options

/-- `ErrorInfo` (the fields the Result-based retry engine can observe:
it reads only `recoverable`; `message` stands for the opaque remainder
of the payload). -/
structure ErrorInfo where
  message : String
  recoverable : Bool
deriving Repr, DecidableEq

/-- `RetryResultOptions` from `src/retry/types.ts`, restricted to the
fields the engine's control flow depends on (see `RetryOptions`). -/
structure RetryResultOptions where
  maxRetries : ℕ
  retryCondition : Option (ErrorInfo → ℕ → Bool) := none

/-- `prepareResultOptions` from `src/retry/retry-result.ts`: fills in
the default continuation predicate
`(error) => error.recoverable === true`. -/
def prepareResultOptions (options : RetryResultOptions) :
    ℕ × (ErrorInfo → ℕ → Bool) :=
  (options.maxRetries,
   options.retryCondition.getD (fun error _ => error.recoverable == true))

/-- `retryResultRecursive` from `src/retry/retry-result.ts`.  `fn k` is
the Result returned by the `k`-th invocation of the operation.  The
source guard is `attempt >= maxRetries || !retryCondition(result.error,
attempt)`; `||` short-circuits, so the predicate is evaluated (and
recorded) only when the budget check is false. -/
def retryResultRecursive {T : Type} (fn : ℕ → Result T ErrorInfo)
    (maxRetries : ℕ) (retryCondition : ErrorInfo → ℕ → Bool) (attempt : ℕ) :
    Result T ErrorInfo × RetryTrace ErrorInfo :=
  match fn attempt with
  | .success value => (.success value, ⟨1, [], [], []⟩)
  | .failure e =>
    if maxRetries ≤ attempt then
      (.failure e, ⟨1, [], [], []⟩)
    else if !retryCondition e attempt then
      (.failure e, ⟨1, [attempt], [], []⟩)
    else
      let rest :=
        retryResultRecursive fn maxRetries retryCondition (attempt + 1)
      (rest.1,
       ⟨rest.2.opCalls + 1, attempt :: rest.2.condCalls,
        (attempt, e) :: rest.2.onRetryCalls, attempt :: rest.2.backoffCalls⟩)
termination_by maxRetries - attempt
decreasing_by omega

/-- `retryResult` from `src/retry/retry-result.ts`: prepares the options
and starts `retryResultRecursive` at attempt 1. -/
def retryResult {T : Type} (fn : ℕ → Result T ErrorInfo)
    (options : RetryResultOptions) :
    Result T ErrorInfo × RetryTrace ErrorInfo :=
  let p := prepareResultOptions options
  retryResultRecursive fn p.1 p.2 1

/-- The `while` loop of the alternate implementation of `retryResult`
kept in the repository alongside the recursive one.  The loop condition
is `isFailure(result) && attempts <= maxRetries &&
retryCondition(result.error, attempts)` (short-circuiting left to
right); the body runs `onRetry`, waits, re-invokes the operation and
increments `attempts`.  `fn k` is the `k`-th invocation's Result, so the
re-invocation inside the body with counter `attempts` is call
`attempts + 1`. -/
def retryResultLoopGo {T : Type} (fn : ℕ → Result T ErrorInfo)
    (maxRetries : ℕ) (retryCondition : ErrorInfo → ℕ → Bool)
    (result : Result T ErrorInfo) (attempts : ℕ) :
    Result T ErrorInfo × RetryTrace ErrorInfo :=
  match result with
  | .success value => (.success value, ⟨0, [], [], []⟩)
  | .failure e =>
    if maxRetries < attempts then
      (.failure e, ⟨0, [], [], []⟩)
    else if !retryCondition e attempts then
      (.failure e, ⟨0, [attempts], [], []⟩)
    else
      let next := fn (attempts + 1)
      let rest :=
        retryResultLoopGo fn maxRetries retryCondition next (attempts + 1)
      (rest.1,
       ⟨rest.2.opCalls + 1, attempts :: rest.2.condCalls,
        (attempts, e) :: rest.2.onRetryCalls,
        attempts :: rest.2.backoffCalls⟩)
termination_by maxRetries + 1 - attempts
decreasing_by omega

/-- The alternate (loop) implementation of `retryResult`: one initial
invocation, then the `while` loop starting with `attempts = 1`.  The
option defaults are the same as `prepareResultOptions`. -/
def retryResultLoop {T : Type} (fn : ℕ → Result T ErrorInfo)
    (options : RetryResultOptions) :
    Result T ErrorInfo × RetryTrace ErrorInfo :=
  let p := prepareResultOptions options
  let first := fn 1
  let r := retryResultLoopGo fn p.1 p.2 first 1
  (r.1, { r.2 with opCalls := r.2.opCalls + 1 })

end Libca

namespace Libca

/-- Auxiliary characterisation of the `all` scan for an arbitrary
accumulator: the result is the failure of the earliest error in the
list, or success of the accumulator followed by every contained value
in order. -/
theorem allGo_eq {T E : Type} (results : List (Result T E)) (acc : List T) :
    allGo results acc =
      match (results.filterMap failureError?).head? with
      | some e => .failure e
      | none => .success (acc ++ results.filterMap successValue?) := by
  induction results generalizing acc with
  | nil => simp [allGo]
  | cons r rest ih =>
    cases r with
    | failure e =>
      simp [allGo, failureError?]
    | success v =>
      simp only [allGo, List.filterMap_cons, successValue?, failureError?]
      rw [ih]
      cases (rest.filterMap failureError?).head? with
      | none => simp
      | some e => simp

end Libca

/-- C7: `all` returns `success` of the contained values, in the same
order, when every element is a success, and otherwise returns the
failure whose error sits at the earliest index of a left-to-right scan
(`filterMap …|>.head?` is the first failure's error, earliest index
first). -/
theorem C7_all_first_failure_or_values {T E : Type}
    (results : List (Libca.Result T E)) :
    Libca.all results =
      match (results.filterMap Libca.failureError?).head? with
      | some e => .failure e
      | none => .success (results.filterMap Libca.successValue?) := by
  rw [Libca.all, Libca.allGo_eq]
  cases (results.filterMap Libca.failureError?).head? <;> simp

/-- C10: `all` applied to the empty list returns `success` of the empty
list. -/
theorem C10_all_nil {T E : Type} :
    Libca.all ([] : List (Libca.Result T E)) = .success [] := rfl

/-- C8: `map`, `flatMap` and `mapAsync` on a failure return a failure
carrying the identical error and never invoke the transform (the state
thread of the instrumented transform is untouched); `mapError` on a
success returns a success carrying the identical value and never invokes
the transform; and `map` on a success returns `success (fn value)`. -/
theorem C8_transforms_skip_opposite_variant {T U E F σ : Type}
    (e : E) (v : T) (s : σ)
    (fn : T → σ → U × σ) (fn2 : T → σ → Libca.Result U E × σ)
    (fn3 : E → σ → F × σ) (g : T → U) :
    Libca.mapWithState (.failure e) fn s = (.failure e, s) ∧
    Libca.flatMapWithState (.failure e) fn2 s = (.failure e, s) ∧
    Libca.mapAsyncWithState (.failure e) fn s = (.failure e, s) ∧
    Libca.map (Libca.Result.failure e) g = .failure e ∧
    Libca.mapErrorWithState (.success v) fn3 s = (.success v, s) ∧
    Libca.mapWithState (E := E) (.success v) fn s =
      (.success (fn v s).1, (fn v s).2) ∧
    Libca.map (E := E) (Libca.Result.success v) g = .success (g v) :=
  ⟨rfl, rfl, rfl, rfl, rfl, rfl, rfl⟩

namespace Libca

theorem retryRecursive_always_error {T E : Type} (err : ℕ → E) (m : ℕ)
    (c : E → ℕ → Bool) (hc : ∀ k, 1 ≤ k → k ≤ m → c (err k) k = true) :
    ∀ a, 1 ≤ a → a ≤ m + 1 →
      retryRecursive (T := T) (fun k => .error (err k)) m c a =
        (.error (err (m + 1)),
         ⟨m + 2 - a, List.range' a (m + 1 - a),
          (List.range' a (m + 1 - a)).map (fun k => (k, err k)),
          List.range' a (m + 1 - a)⟩) := by
  intro a
  induction a using Libca.retryRecursive.induct (T := T)
    (fun k => Except.error (err k)) m c with
  | case1 x value h => exact Except.noConfusion h
  | case2 x e h hcut =>
    intro h1 h2
    have hx : x = m + 1 := by omega
    subst hx
    rw [retryRecursive.eq_def]
    simp [show m + 2 - (m + 1) = 1 from by omega,
      show m + 1 - (m + 1) = 0 from by omega]
  | case3 x e h hcond hcut =>
    intro h1 h2
    obtain rfl : e = err x := (Except.error.inj h).symm
    rw [hc x h1 (by omega)] at hcut
    simp at hcut
  | case4 x e h hcut hcond ih =>
    intro h1 h2
    obtain rfl : e = err x := (Except.error.inj h).symm
    have hxm : x ≤ m := by omega
    rw [retryRecursive.eq_def]
    rw [ih (by omega) (by omega)]
    simp only [hcut, if_false, hcond, ite_false, if_neg]
    rw [show m + 1 - x = (m - x) + 1 from by omega, List.range'_succ]
    simp [show m + 1 - (x + 1) = m - x from by omega,
      show m + 2 - (x + 1) + 1 = m + 2 - x from by omega]
    omega

end Libca

namespace Libca

theorem retryRecursive_last {T E : Type} (fn : ℕ → Except E T) (m : ℕ)
    (c : E → ℕ → Bool) :
    ∀ a, 1 ≤ a →
      (retryRecursive fn m c a).1 =
        fn (a - 1 + (retryRecursive fn m c a).2.opCalls) := by
  intro a
  induction a using Libca.retryRecursive.induct (T := T) fn m c with
  | case1 x value h =>
    intro h1
    rw [retryRecursive.eq_def]
    simp [h, show x - 1 + 1 = x from by omega]
  | case2 x e h hcut =>
    intro h1
    rw [retryRecursive.eq_def]
    simp [h, hcut, show x - 1 + 1 = x from by omega]
  | case3 x e h hcut hcond =>
    intro h1
    rw [retryRecursive.eq_def]
    simp [h, hcut, hcond, show x - 1 + 1 = x from by omega]
  | case4 x e h hcut hcond ih =>
    intro h1
    rw [retryRecursive.eq_def]
    simp only [h]
    rw [if_neg hcut, if_neg hcond]
    simp only []
    rw [ih (by omega)]
    congr 1
    omega

theorem retryResultRecursive_last {T : Type} (fn : ℕ → Result T ErrorInfo)
    (m : ℕ) (c : ErrorInfo → ℕ → Bool) :
    ∀ a, 1 ≤ a →
      (retryResultRecursive fn m c a).1 =
        fn (a - 1 + (retryResultRecursive fn m c a).2.opCalls) := by
  intro a
  induction a using Libca.retryResultRecursive.induct (T := T) fn m c with
  | case1 x value h =>
    intro h1
    rw [retryResultRecursive.eq_def]
    simp [h, show x - 1 + 1 = x from by omega]
  | case2 x e h hcut =>
    intro h1
    rw [retryResultRecursive.eq_def]
    simp [h, hcut, show x - 1 + 1 = x from by omega]
  | case3 x e h hcut hcond =>
    intro h1
    rw [retryResultRecursive.eq_def]
    simp [h, hcut, hcond, show x - 1 + 1 = x from by omega]
  | case4 x e h hcut hcond ih =>
    intro h1
    rw [retryResultRecursive.eq_def]
    simp only [h]
    rw [if_neg hcut, if_neg hcond]
    simp only []
    rw [ih (by omega)]
    congr 1
    omega

end Libca

/-- C2: with an operation that throws on every call and a continuation
predicate that accepts every encountered error (the default predicate on
truthy errors, or an always-true one), `retryAsync` invokes the
operation exactly `n + 1` times, invokes `onRetry` exactly `n` times
with the attempt number and that attempt's error, waits exactly `n`
times (between attempts only: attempts `1..n`, never attempt `n + 1`),
and finally rejects with the last error; `retry` is the same engine. -/
theorem C2_retryAsync_always_throw_counts {T E : Type} (n : ℕ) (err : ℕ → E)
    (truthy : E → Bool) (c : E → ℕ → Bool)
    (hc : ∀ k, 1 ≤ k → k ≤ n → c (err k) k = true)
    (ht : ∀ k, 1 ≤ k → k ≤ n → truthy (err k) = true) :
    Libca.retryAsync (T := T) (fun k => .error (err k)) truthy ⟨n, some c⟩ =
      (.error (err (n + 1)),
       ⟨n + 1, List.range' 1 n,
        (List.range' 1 n).map (fun k => (k, err k)), List.range' 1 n⟩) ∧
    Libca.retryAsync (T := T) (fun k => .error (err k)) truthy ⟨n, none⟩ =
      (.error (err (n + 1)),
       ⟨n + 1, List.range' 1 n,
        (List.range' 1 n).map (fun k => (k, err k)), List.range' 1 n⟩) ∧
    Libca.retry (T := T) (fun k => .error (err k)) truthy ⟨n, some c⟩ =
      Libca.retryAsync (T := T) (fun k => .error (err k)) truthy
        ⟨n, some c⟩ := by
  refine ⟨?_, ?_, rfl⟩
  · have h := Libca.retryRecursive_always_error (T := T) err n c hc 1
      (by omega) (by omega)
    simpa using h
  · have h := Libca.retryRecursive_always_error (T := T) err n
      (fun e _ => truthy e) (fun k hk1 hk2 => ht k hk1 hk2) 1
      (by omega) (by omega)
    simpa [Libca.retryAsync, Libca.prepareOptions] using h

/-- C2 witness at `n = 2`. -/
theorem C2_witness :
    (∀ k, 1 ≤ k → k ≤ 2 → (fun (_ : ℕ) (_ : ℕ) => true) k k = true) ∧
    Libca.retryAsync (T := Unit) (fun k => .error k) (fun _ => true)
        ⟨2, some fun _ _ => true⟩ =
      (.error 3,
       ⟨3, List.range' 1 2, (List.range' 1 2).map (fun k => (k, k)),
        List.range' 1 2⟩) :=
  ⟨fun _ _ _ => rfl,
   (C2_retryAsync_always_throw_counts 2 (fun k => k) (fun _ => true)
      (fun _ _ => true) (fun _ _ _ => rfl) (fun _ _ _ => rfl)).1⟩

/-- C4: both engines return the last attempt's outcome verbatim.  The
exception-based engine's result is exactly `fn` applied to the last
attempt number (so on cutoff it rejects with the very error value the
last attempt raised, with no wrapper added), and the Result-based
engine's result is exactly the last attempt's Result, returned as a pure
value (its return type has no exception channel: it never raises). -/
theorem C4_propagates_last_outcome {T T2 E : Type} (fn : ℕ → Except E T)
    (truthy : E → Bool) (options : Libca.RetryOptions E)
    (fnR : ℕ → Libca.Result T2 Libca.ErrorInfo)
    (optionsR : Libca.RetryResultOptions) :
    (Libca.retryAsync fn truthy options).1 =
      fn ((Libca.retryAsync fn truthy options).2.opCalls) ∧
    (Libca.retryResult fnR optionsR).1 =
      fnR ((Libca.retryResult fnR optionsR).2.opCalls) := by
  constructor
  · have h := Libca.retryRecursive_last fn options.maxRetries
      ((Libca.prepareOptions truthy options).2) 1 (by omega)
    simpa [Libca.retryAsync] using h
  · have h := Libca.retryResultRecursive_last fnR optionsR.maxRetries
      ((Libca.prepareResultOptions optionsR).2) 1 (by omega)
    simpa [Libca.retryResult] using h

/-- C9: with `maxRetries = 0` each engine invokes the operation exactly
once and returns (or re-raises) its outcome; the continuation predicate,
`onRetry` and the backoff are never invoked (all three trace lists are
empty — the budget check short-circuits the predicate). -/
theorem C9_zero_budget_single_attempt {T T2 E : Type}
    (fn : ℕ → Except E T) (truthy : E → Bool)
    (rc : Option (E → ℕ → Bool))
    (fnR : ℕ → Libca.Result T2 Libca.ErrorInfo)
    (rcR : Option (Libca.ErrorInfo → ℕ → Bool)) :
    Libca.retryAsync fn truthy ⟨0, rc⟩ = (fn 1, ⟨1, [], [], []⟩) ∧
    Libca.retryResult fnR ⟨0, rcR⟩ = (fnR 1, ⟨1, [], [], []⟩) := by
  constructor
  · cases h : fn 1 <;>
      simp [Libca.retryAsync, Libca.prepareOptions,
        Libca.retryRecursive.eq_def, h]
  · cases h : fnR 1 <;>
      simp [Libca.retryResult, Libca.prepareResultOptions,
        Libca.retryResultRecursive.eq_def, h]

/-- C5: `retryResult` with the default continuation predicate stops
after a single invocation when the first failure has
`recoverable = false`, resolving with that failure; the default
predicate is `error.recoverable === true`, and a caller-supplied
predicate fully replaces it. -/
theorem C5_nonrecoverable_stops_immediately {T : Type}
    (fn : ℕ → Libca.Result T Libca.ErrorInfo) (m : ℕ)
    (e : Libca.ErrorInfo) (h1 : fn 1 = .failure e)
    (h2 : e.recoverable = false) :
    (Libca.retryResult fn ⟨m, none⟩).1 = .failure e ∧
    (Libca.retryResult fn ⟨m, none⟩).2.opCalls = 1 ∧
    (∀ p, (Libca.prepareResultOptions ⟨m, some p⟩).2 = p) ∧
    (Libca.prepareResultOptions ⟨m, none⟩).2 =
      fun error _ => error.recoverable == true := by
  refine ⟨?_, ?_, fun p => rfl, rfl⟩ <;>
  · rw [Libca.retryResult]
    simp only [Libca.prepareResultOptions, Option.getD_none]
    rw [Libca.retryResultRecursive.eq_def]
    simp only [h1]
    by_cases hm : m ≤ 1 <;> simp [hm, h2]

/-- C1 fails on the code: with `maxRetries = 1` and an operation that
always returns a recoverable failure, `retryResult` (the recursive
implementation, whose guard is `attempt >= maxRetries`) invokes the
operation exactly once — not `maxRetries + 1 = 2` times — while the
exception-based engine (guard `attempt > maxRetries`) and the alternate
loop implementation of `retryResult` kept in the repository (guard
`attempts <= maxRetries`) both make 2 attempts, as the claim and the
spec's shared-semantics rule require. -/
theorem C1_retryResult_attempt_count_bug :
    (Libca.retryResult (T := Unit)
        (fun _ => .failure ⟨"transient", true⟩) ⟨1, none⟩).2.opCalls = 1 ∧
    (Libca.retryResult (T := Unit)
        (fun _ => .failure ⟨"transient", true⟩) ⟨1, none⟩).1 =
      .failure ⟨"transient", true⟩ ∧
    (Libca.retryAsync (T := Unit)
        (fun _ => .error (Libca.ErrorInfo.mk "transient" true))
        (fun _ => true) ⟨1, none⟩).2.opCalls = 2 ∧
    (Libca.retryResultLoop (T := Unit)
        (fun _ => .failure ⟨"transient", true⟩) ⟨1, none⟩).2.opCalls = 2 := by
  refine ⟨?_, ?_, ?_, ?_⟩
  · simp [Libca.retryResult, Libca.retryResultRecursive,
      Libca.prepareResultOptions]
  · simp [Libca.retryResult, Libca.retryResultRecursive,
      Libca.prepareResultOptions]
  · simp [Libca.retryAsync, Libca.retryRecursive, Libca.prepareOptions]
  · simp [Libca.retryResultLoop, Libca.retryResultLoopGo,
      Libca.prepareResultOptions]

/-- C6: with `jitterFactor = 0` the delay is exactly
`min(baseMs * 2^(attempt-1), maxMs)` and the entropy stream is returned
untouched (no randomness consulted); `exponentialBackoff` forces
`jitterFactor = 0` and leaves `maxMs` at its default `8000`, and its own
default `baseMs` is `200`. -/
theorem C6_zero_jitter_deterministic (baseMs maxMs : ℚ) (attempt : ℕ)
    (rng : List ℚ) (_h : 1 ≤ attempt) :
    Libca.exponentialBackoffWithJitter
        ⟨some baseMs, some maxMs, some 0⟩ attempt rng =
      (min (baseMs * 2 ^ (attempt - 1)) maxMs, rng) ∧
    Libca.exponentialBackoff baseMs attempt rng =
      (min (baseMs * 2 ^ (attempt - 1)) 8000, rng) ∧
    Libca.exponentialBackoff 200 attempt rng =
      (min ((200 : ℚ) * 2 ^ (attempt - 1)) 8000, rng) := by
  refine ⟨?_, ?_, ?_⟩ <;>
    simp [Libca.exponentialBackoff, Libca.exponentialBackoffWithJitter,
      Libca.extractBackoffParams, Libca.calculateExponentialDelay,
      Libca.applyJitter]

/-- C6 witness at `attempt = 1`, `baseMs = 200`, `maxMs = 8000`. -/
theorem C6_witness :
    (1 : ℕ) ≤ 1 ∧
    Libca.exponentialBackoffWithJitter
        ⟨some 200, some 8000, some 0⟩ 1 [1/2] =
      (min ((200 : ℚ) * 2 ^ (1 - 1)) 8000, [1/2]) :=
  ⟨le_refl 1, (C6_zero_jitter_deterministic 200 8000 1 [1/2] (le_refl 1)).1⟩

/-- C3 is false as stated: at `baseMs = 5`, default `maxMs = 8000`,
`jitterFactor = 1/2`, `attempt = 1` and random draw `0`, the clipped
delay is `5` and the computed delay is
`max(0, ⌊5 + 5·(1/2)·(−1)⌋) = ⌊5/2⌋ = 2`, which lies strictly below the
claimed closed lower bound `max(0, clipped·(1−jitterFactor)) = 5/2`. -/
theorem C3_counterexample :
    (Libca.exponentialBackoffWithJitter
        ⟨some 5, none, some (1/2)⟩ 1 [0]).1 = 2 ∧
    ¬ (max 0 (min ((5 : ℚ) * 2 ^ (1 - 1)) 8000 * (1 - 1/2)) ≤
         (Libca.exponentialBackoffWithJitter
           ⟨some 5, none, some (1/2)⟩ 1 [0]).1 ∧
       (Libca.exponentialBackoffWithJitter
           ⟨some 5, none, some (1/2)⟩ 1 [0]).1 ≤
         min ((5 : ℚ) * 2 ^ (1 - 1)) 8000 * (1 + 1/2)) := by
  have hv : (Libca.exponentialBackoffWithJitter
      ⟨some 5, none, some (1/2)⟩ 1 [0]).1 = 2 := by
    simp [Libca.exponentialBackoffWithJitter, Libca.extractBackoffParams,
      Libca.calculateExponentialDelay, Libca.applyJitter]
    norm_num
  refine ⟨hv, ?_⟩
  rw [hv]
  rintro ⟨hA, -⟩
  norm_num at hA

/-- C3 amended: for `jitterFactor ∈ (0,1]`, nonnegative `baseMs`,
`maxMs`, and a random draw `r ∈ [0,1]`, the delay lies within
`[max(0, ⌊clipped·(1−jitterFactor)⌋), clipped·(1+jitterFactor)]` —
because the code floors after adding the jitter, the lower bound carries
a floor the original claim lacked. -/
theorem C3_amended_jitter_bounds (baseMs maxMs jitterFactor r : ℚ)
    (attempt : ℕ) (rest : List ℚ) (_hatt : 1 ≤ attempt)
    (hbase : 0 ≤ baseMs) (hmax : 0 ≤ maxMs) (hjf0 : 0 < jitterFactor)
    (_hjf1 : jitterFactor ≤ 1) (hr0 : 0 ≤ r) (hr1 : r ≤ 1) :
    max 0 ((⌊min (baseMs * 2 ^ (attempt - 1)) maxMs *
        (1 - jitterFactor)⌋ : ℤ) : ℚ) ≤
      (Libca.exponentialBackoffWithJitter
        ⟨some baseMs, some maxMs, some jitterFactor⟩ attempt (r :: rest)).1 ∧
    (Libca.exponentialBackoffWithJitter
        ⟨some baseMs, some maxMs, some jitterFactor⟩ attempt (r :: rest)).1 ≤
      min (baseMs * 2 ^ (attempt - 1)) maxMs * (1 + jitterFactor) := by
  have hc : (0 : ℚ) ≤ min (baseMs * 2 ^ (attempt - 1)) maxMs :=
    le_min (by positivity) hmax
  set c : ℚ := min (baseMs * 2 ^ (attempt - 1)) maxMs with hcdef
  have hval : (Libca.exponentialBackoffWithJitter
      ⟨some baseMs, some maxMs, some jitterFactor⟩ attempt (r :: rest)).1 =
      ((max 0 ⌊c + c * jitterFactor * (r * 2 - 1)⌋ : ℤ) : ℚ) := by
    rw [Libca.exponentialBackoffWithJitter]
    simp [Libca.extractBackoffParams, Libca.calculateExponentialDelay,
      Libca.applyJitter, not_le.mpr hjf0]
  rw [hval]
  have hxl : c * (1 - jitterFactor) ≤ c + c * jitterFactor * (r * 2 - 1) := by
    nlinarith [mul_nonneg (mul_nonneg hc hjf0.le) hr0]
  have hxu : c + c * jitterFactor * (r * 2 - 1) ≤ c * (1 + jitterFactor) := by
    nlinarith [mul_nonneg (mul_nonneg hc hjf0.le) (sub_nonneg.mpr hr1)]
  constructor
  · apply max_le
    · exact_mod_cast le_max_left (0 : ℤ) ⌊c + c * jitterFactor * (r * 2 - 1)⌋
    · exact_mod_cast le_trans (Int.floor_le_floor hxl)
        (le_max_right (0 : ℤ) ⌊c + c * jitterFactor * (r * 2 - 1)⌋)
  · rw [Int.cast_max]
    apply max_le
    · simpa using mul_nonneg hc (by linarith : (0 : ℚ) ≤ 1 + jitterFactor)
    · exact le_trans (Int.floor_le _) hxu

/-- C3 amended witness at `baseMs = 5`, `maxMs = 8000`,
`jitterFactor = 1/2`, `attempt = 1`, random draw `1/2`. -/
theorem C3_amended_witness :
    ((1 : ℕ) ≤ 1 ∧ (0 : ℚ) ≤ 5 ∧ (0 : ℚ) ≤ 8000 ∧ (0 : ℚ) < 1/2 ∧
      (1/2 : ℚ) ≤ 1 ∧ (0 : ℚ) ≤ 1/2 ∧ (1/2 : ℚ) ≤ 1) ∧
    (max 0 ((⌊min ((5 : ℚ) * 2 ^ (1 - 1)) 8000 * (1 - 1/2)⌋ : ℤ) : ℚ) ≤
      (Libca.exponentialBackoffWithJitter
        ⟨some 5, some 8000, some (1/2)⟩ 1 ((1/2) :: [])).1 ∧
     (Libca.exponentialBackoffWithJitter
        ⟨some 5, some 8000, some (1/2)⟩ 1 ((1/2) :: [])).1 ≤
      min ((5 : ℚ) * 2 ^ (1 - 1)) 8000 * (1 + 1/2)) :=
  ⟨by norm_num,
   C3_amended_jitter_bounds 5 8000 (1/2) (1/2) 1 [] (by norm_num)
     (by norm_num) (by norm_num) (by norm_num) (by norm_num)
     (by norm_num) (by norm_num)⟩

/-- C5 witness: an operation whose first call returns
`failure {recoverable := false}`, with `maxRetries = 5`. -/
theorem C5_witness :
    (fun (_ : ℕ) =>
        (Libca.Result.failure ⟨"fatal", false⟩ :
          Libca.Result Unit Libca.ErrorInfo)) 1 = .failure ⟨"fatal", false⟩ ∧
    (Libca.ErrorInfo.mk "fatal" false).recoverable = false ∧
    ((Libca.retryResult (T := Unit)
        (fun _ => .failure ⟨"fatal", false⟩) ⟨5, none⟩).1 =
      .failure ⟨"fatal", false⟩ ∧
     (Libca.retryResult (T := Unit)
        (fun _ => .failure ⟨"fatal", false⟩) ⟨5, none⟩).2.opCalls = 1 ∧
     (∀ p, (Libca.prepareResultOptions ⟨5, some p⟩).2 = p) ∧
     (Libca.prepareResultOptions ⟨5, none⟩).2 =
       fun error _ => error.recoverable == true) :=
  ⟨rfl, rfl,
   C5_nonrecoverable_stops_immediately (fun _ => .failure ⟨"fatal", false⟩)
     5 ⟨"fatal", false⟩ rfl rfl⟩
